import Mathlib

/-
  Verification of the `py-com` archive reader (`src/link/parse.py`, `src/link/ar.py`).

  The Python code is shallowly embedded: bytes are `List Nat` (values 0..255 in
  practice), decoded text is the list of Unicode code points (`List Nat`),
  Python exceptions are the `PyError` sum threaded through `Except`, and the
  mutable `BufferStream` objects are passed and returned explicitly.
-/

namespace PyCom

/-- Python dictionaries keyed by `α` are modelled as insertion-ordered
association lists with unique keys; `d[k] = v` replaces the first binding of
`k` in place or appends a fresh binding at the end, exactly like CPython. -/
def dictGet {α β : Type} [BEq α] : List (α × β) → α → Option β
  | [], _ => none
  | p :: rest, k => if p.1 == k then some p.2 else dictGet rest k

/-- Membership test, Python `k in d`. -/
def dictMem {α β : Type} [BEq α] (d : List (α × β)) (k : α) : Bool :=
  (dictGet d k).isSome

/-- Python `d[k] = v`. -/
def dictSet {α β : Type} [BEq α] : List (α × β) → α → β → List (α × β)
  | [], k, v => [(k, v)]
  | p :: rest, k, v => if p.1 == k then (k, v) :: rest else p :: dictSet rest k v

/-- The Python exceptions the reader can raise.  `nameError` is the
`NameError` raised by every `print(..., file = sys.stderr)` call in `ar.py`,
because that module never imports `sys`.  `fuelOut` is an artifact of the
fuel-based loop embedding and is unreachable for the fuel bounds used by
`ArchiveReader.load` (each loop iteration consumes at least one input byte of
its stream). -/
inductive ArErrKind : Type
  | badMagic
  | firstMemberNotIndex
  | badNameFormat
  | noFilenameLookupMember
  | duplicateFilename
  | duplicateSymbol
deriving DecidableEq

inductive PyError : Type
  | bufferIndexError
  | indexError
  | unicodeDecodeError
  | valueError
  | nameError
  | keyError (key : Nat)
  | archiveError (kind : ArErrKind)
  | fuelOut
deriving DecidableEq

instance {ε α : Type} [DecidableEq ε] [DecidableEq α] : DecidableEq (Except ε α) :=
  fun a b =>
    match a, b with
    | .error e1, .error e2 =>
      if h : e1 = e2 then isTrue (by rw [h])
      else isFalse (by intro hh; cases hh; exact h rfl)
    | .error _, .ok _ => isFalse (by intro h; cases h)
    | .ok _, .error _ => isFalse (by intro h; cases h)
    | .ok a1, .ok a2 =>
      if h : a1 = a2 then isTrue (by rw [h])
      else isFalse (by intro hh; cases hh; exact h rfl)

/-- Strict UTF-8 decoding as performed by Python `bytes.decode("utf-8")`:
returns the code points, or `none` on any invalid sequence (bad lead or
continuation byte, overlong form, surrogate, or value above U+10FFFF). -/
def utf8Decode : List Nat → Option (List Nat)
  | [] => some []
  | b :: rest =>
    if b < 128 then
      (utf8Decode rest).map (fun t => b :: t)
    else if b < 194 then none
    else if b < 224 then
      match rest with
      | c1 :: r2 =>
        if 128 ≤ c1 ∧ c1 < 192 then
          (utf8Decode r2).map (fun t => ((b - 192) * 64 + (c1 - 128)) :: t)
        else none
      | [] => none
    else if b < 240 then
      match rest with
      | c1 :: c2 :: r3 =>
        if (128 ≤ c1 ∧ c1 < 192) ∧ (128 ≤ c2 ∧ c2 < 192) ∧
            (b ≠ 224 ∨ 160 ≤ c1) ∧ (b ≠ 237 ∨ c1 < 160) then
          (utf8Decode r3).map
            (fun t => ((b - 224) * 4096 + (c1 - 128) * 64 + (c2 - 128)) :: t)
        else none
      | _ => none
    else if b < 245 then
      match rest with
      | c1 :: c2 :: c3 :: r4 =>
        if (128 ≤ c1 ∧ c1 < 192) ∧ (128 ≤ c2 ∧ c2 < 192) ∧ (128 ≤ c3 ∧ c3 < 192) ∧
            (b ≠ 240 ∨ 144 ≤ c1) ∧ (b ≠ 244 ∨ c1 < 144) then
          (utf8Decode r4).map
            (fun t =>
              ((b - 240) * 262144 + (c1 - 128) * 4096 + (c2 - 128) * 64 + (c3 - 128)) :: t)
        else none
      | _ => none
    else none

/-- Python `str.rstrip(" ")` on a code-point list: drop trailing spaces. -/
def rstripSpace (l : List Nat) : List Nat :=
  (l.reverse.dropWhile (fun c => c == 32)).reverse

def isPySpace (c : Nat) : Bool :=
  c == 32 || c == 9 || c == 10 || c == 13 || c == 12 || c == 11

def isPyDigit (c : Nat) : Bool :=
  48 ≤ c && c ≤ 57

/-- Models Python `int()` on the decimal text that occurs in `ar` headers:
surrounding whitespace is ignored, an optional leading `+` is accepted, and
anything that is not then a nonempty digit run raises `ValueError`.  Python
additionally accepts a leading `-` and digit-group underscores; negative or
underscored header fields never occur in `ar` archives and are outside this
embedding, whose cursor arithmetic is over `Nat`. -/
def pythonInt (l : List Nat) : Except PyError Nat :=
  let t := (((l.dropWhile isPySpace).reverse.dropWhile isPySpace).reverse)
  let t := match t with
    | 43 :: rest => rest
    | other => other
  if t ≠ [] ∧ t.all isPyDigit then
    .ok (t.foldl (fun acc c => acc * 10 + (c - 48)) 0)
  else .error .valueError

/-- `util.parse_big_endian`: shift-accumulate the bytes. -/
def parse_big_endian (l : List Nat) : Nat :=
  l.foldl (fun r b => (r <<< 8) ||| b) 0

/-- `parse.BufferStream`: a byte buffer plus a cursor. -/
structure BufferStream : Type where
  data : List Nat
  cursor : Nat
deriving DecidableEq

/-- `BufferStream.more_to_read`. -/
def BufferStream.more_to_read (s : BufferStream) : Bool :=
  s.cursor < s.data.length

/-- `BufferStream.seek`: reposition unless the argument is `None`. -/
def BufferStream.seekOpt (s : BufferStream) (position : Option Nat) : BufferStream :=
  match position with
  | none => s
  | some p => { s with cursor := p }

/-- `BufferStream._new_cursor`. -/
def BufferStream.newCursor (s : BufferStream) (length : Option Nat) : Nat :=
  match length with
  | none => s.data.length
  | some l => s.cursor + l

/-- `BufferStream.read_bytes`: slice `data[cursor:new_cursor]` (Python slices
clamp at the end of the buffer), then fail if a requested fixed length was not
fully available, else advance the cursor. -/
def BufferStream.read_bytes (s : BufferStream) (length seek : Option Nat) :
    Except PyError (List Nat × BufferStream) :=
  let s := s.seekOpt seek
  let nc := s.newCursor length
  let result := (s.data.take nc).drop s.cursor
  match length with
  | some l =>
    if result.length = l then .ok (result, { s with cursor := nc })
    else .error .bufferIndexError
  | none => .ok (result, { s with cursor := nc })

/-- `BufferStream.read_ascii`: `read_bytes` then `bytes.decode("utf-8")`. -/
def BufferStream.read_ascii (s : BufferStream) (length seek : Option Nat) :
    Except PyError (List Nat × BufferStream) :=
  match s.read_bytes length seek with
  | .error e => .error e
  | .ok (bs, s2) =>
    match utf8Decode bs with
    | none => .error .unicodeDecodeError
    | some t => .ok (t, s2)

/-- `BufferStream.read_ascii_integer`: `read_ascii` then `int(...)`. -/
def BufferStream.read_ascii_integer (s : BufferStream) (length seek : Option Nat) :
    Except PyError (Nat × BufferStream) :=
  match s.read_ascii length seek with
  | .error e => .error e
  | .ok (t, s2) =>
    match pythonInt t with
    | .error e => .error e
    | .ok n => .ok (n, s2)

/-- `BufferStream.read_big_endian_dword`. -/
def BufferStream.read_big_endian_dword (s : BufferStream) (seek : Option Nat) :
    Except PyError (Nat × BufferStream) :=
  match s.read_bytes (some 4) seek with
  | .error e => .error e
  | .ok (bs, s2) => .ok (parse_big_endian bs, s2)

/-- Scan helper for `read_cstring`: index of the first zero byte in `l`,
reported as `i` plus the position within `l`; `none` when `l` has no zero
byte, which in the Python source is an uncaught `IndexError` — the guard
`string_end_offset > len(self.data)` on line 60 of `parse.py` can never fire
before indexing one past the end raises. -/
def scanZeroAux : List Nat → Nat → Option Nat
  | [], _ => none
  | b :: rest, i => if b = 0 then some i else scanZeroAux rest (i + 1)

def scanZero (data : List Nat) (i : Nat) : Option Nat :=
  scanZeroAux (data.drop i) i

/-- `BufferStream.read_cstring`: optional seek, fail if nothing remains, scan
for the terminator, decode the bytes strictly before it, and advance the
cursor one past the terminator. -/
def BufferStream.read_cstring (s : BufferStream) (seek : Option Nat) :
    Except PyError (List Nat × BufferStream) :=
  let s := s.seekOpt seek
  if ¬ s.more_to_read then .error .bufferIndexError
  else
    match scanZero s.data s.cursor with
    | none => .error .indexError
    | some e =>
      match utf8Decode ((s.data.take e).drop s.cursor) with
      | none => .error .unicodeDecodeError
      | some t => .ok (t, { s with cursor := e + 1 })

/-- `BufferStream.read_sub_stream`: carve out `data[cursor:new_cursor]` as a
fresh stream and advance the parent's cursor; unlike `read_bytes` the Python
source performs no length check, so a range past the end silently clamps.
Returns the new stream together with the updated parent. -/
def BufferStream.read_sub_stream (s : BufferStream) (length seek : Option Nat) :
    BufferStream × BufferStream :=
  let s := s.seekOpt seek
  let nc := s.newCursor length
  (⟨(s.data.take nc).drop s.cursor, 0⟩, { s with cursor := nc })

/-- `ArchiveReader.Member`: one archive entry, lightly processed as in
`ar.py`.  Text fields are decoded code-point lists, numeric fields are the
integers produced by `read_ascii_integer`, and `content` is the sub-stream
carved out for the member's payload. -/
structure Member : Type where
  name : List Nat
  date : Nat
  user_id : List Nat
  group_id : List Nat
  mode : Nat
  size : Nat
  content : BufferStream
deriving DecidableEq

/-- The two dictionaries held by an `ArchiveReader` instance. -/
structure ReaderState : Type where
  members : List (List Nat × Member)
  symbol_member_map : List (List Nat × List Nat)
deriving DecidableEq

/-- `ArchiveReader.reset`: both dictionaries are replaced by fresh empty
ones. -/
def ReaderState.reset (_ : ReaderState) : ReaderState :=
  ⟨[], []⟩

/-- The state of a freshly constructed `ArchiveReader` (its `__init__` calls
`reset` before any `load`). -/
def emptyState : ReaderState :=
  ⟨[], []⟩

/-- `ArchiveReader._read_member` (`ar.py` lines 69-122).  `members` is the
reader's current `self.members` (consulted by the duplicate-name check), `fm`
the current filename-lookup member or `None`.  Returns the parsed member, the
filename-lookup member (whose content cursor the long-name path advances in
place), and the advanced data stream.  Faithfully kept from the source: the
decimal offset of a long-name reference is parsed before the
`filename_member is None` check; the header-terminator and padding warnings
raise `NameError` because `ar.py` uses `sys.stderr` without importing `sys`;
and the parity check runs only after the 60 header bytes were read, so it
consumes a pad byte between this header and this member's content rather
than before the header. -/
def read_member (members : List (List Nat × Member)) (fm : Option Member)
    (ds : BufferStream) : Except PyError (Member × Option Member × BufferStream) :=
  match ds.read_ascii (some 16) none with
  | .error e => .error e
  | .ok (nameField, ds) =>
    let filename := rstripSpace nameField
    let resolved : Except PyError (List Nat × Option Member) :=
      if filename = [47] ∨ filename = [47, 47] then .ok (filename, fm)
      else
        let r : Except PyError (List Nat × Option Member) :=
          if filename.getLast? = some 47 then .ok (filename.dropLast, fm)
          else if filename.head? = some 47 then
            match pythonInt (filename.drop 1) with
            | .error e => .error e
            | .ok filenameOffset =>
              match fm with
              | none => .error (.archiveError .noFilenameLookupMember)
              | some m =>
                match m.content.read_cstring (some filenameOffset) with
                | .error e => .error e
                | .ok (nm, c) => .ok (nm, some { m with content := c })
          else .error (.archiveError .badNameFormat)
        match r with
        | .error e => .error e
        | .ok (fn, fm2) =>
          if dictMem members fn then .error (.archiveError .duplicateFilename)
          else .ok (fn, fm2)
    match resolved with
    | .error e => .error e
    | .ok (filename, fm2) =>
      match ds.read_ascii_integer (some 12) none with
      | .error e => .error e
      | .ok (date, ds) =>
        match ds.read_ascii (some 6) none with
        | .error e => .error e
        | .ok (uid, ds) =>
          match ds.read_ascii (some 6) none with
          | .error e => .error e
          | .ok (gid, ds) =>
            match ds.read_ascii_integer (some 8) none with
            | .error e => .error e
            | .ok (mode, ds) =>
              match ds.read_ascii_integer (some 10) none with
              | .error e => .error e
              | .ok (size, ds) =>
                match ds.read_bytes (some 2) none with
                | .error e => .error e
                | .ok (endHeader, ds) =>
                  if ¬ (endHeader.getD 0 0 = 96 ∧ endHeader.getD 1 0 = 10) then
                    .error .nameError
                  else
                    let padded : Except PyError BufferStream :=
                      if ds.cursor % 2 ≠ 0 then
                        match ds.read_bytes (some 1) none with
                        | .error e => .error e
                        | .ok (padding, ds) =>
                          if padding.getD 0 0 ≠ 10 then .error .nameError
                          else .ok ds
                      else .ok ds
                    match padded with
                    | .error e => .error e
                    | .ok ds =>
                      let (content, ds) := ds.read_sub_stream (some size) none
                      .ok ({ name := filename, date := date,
                             user_id := rstripSpace uid,
                             group_id := rstripSpace gid, mode := mode,
                             size := size, content := content }, fm2, ds)

/-- The member-cataloging loop of `ArchiveReader.load` (`ar.py` lines
135-159), with explicit fuel.  One unit of fuel is spent per iteration; every
iteration consumes at least the 60 header bytes of its stream, so the
`data.length + 1` fuel supplied by `load` can never run out while
`more_to_read` holds.  The missing-second-index and duplicate-`//` warnings
raise `NameError` (no `import sys`), so those branches abort. -/
def catalogLoop (fuel : Nat) (members : List (List Nat × Member))
    (mnbo : List (Nat × List Nat)) (fm : Option Member) (isFirst : Bool)
    (ds : BufferStream) :
    Except PyError (List (List Nat × Member) × List (Nat × List Nat)) :=
  match fuel with
  | 0 => if ds.more_to_read then .error .fuelOut else .ok (members, mnbo)
  | fuel + 1 =>
    if ds.more_to_read then
      let fileOffset := ds.cursor
      match read_member members fm ds with
      | .error e => .error e
      | .ok (member, fm, ds) =>
        if isFirst then
          if member.name = [47] then catalogLoop fuel members mnbo fm false ds
          else .error .nameError
        else if member.name = [47, 47] then
          match fm with
          | none => catalogLoop fuel members mnbo (some member) false ds
          | some _ => .error .nameError
        else
          catalogLoop fuel (dictSet members member.name member)
            (dictSet mnbo fileOffset member.name) fm false ds
    else .ok (members, mnbo)

/-- The symbol-index decoding loop of `ArchiveReader.load` (`ar.py` lines
175-184), with explicit fuel: each iteration reads 4 bytes from the offset
stream, so the `os.data.length + 1` fuel supplied by `load` can never run out
while `more_to_read` holds.  An offset absent from `member_name_by_offset`
raises `KeyError` carrying that offset. -/
def decodeLoop (fuel : Nat) (mnbo : List (Nat × List Nat))
    (smap : List (List Nat × List Nat)) (os ns : BufferStream) :
    Except PyError (List (List Nat × List Nat)) :=
  match fuel with
  | 0 => if os.more_to_read then .error .fuelOut else .ok smap
  | fuel + 1 =>
    if os.more_to_read then
      match os.read_big_endian_dword none with
      | .error e => .error e
      | .ok (memberOffset, os) =>
        match ns.read_cstring none with
        | .error e => .error e
        | .ok (symbolName, ns) =>
          match dictGet mnbo memberOffset with
          | none => .error (.keyError memberOffset)
          | some memberName =>
            if dictMem smap symbolName then .error (.archiveError .duplicateSymbol)
            else decodeLoop fuel mnbo (dictSet smap symbolName memberName) os ns
    else .ok smap

/-- The bytes of the literal magic `!<arch>\n`. -/
def arMagic : List Nat :=
  [33, 60, 97, 114, 99, 104, 62, 10]

/-- `ArchiveReader.load` (`ar.py` lines 124-184) over an explicit initial
state: `load` never calls `reset`, so the dictionaries already held by the
instance take part in the parse (duplicate checks and updates). -/
def load (st : ReaderState) (data : List Nat) : Except PyError ReaderState :=
  let ds : BufferStream := ⟨data, 0⟩
  match ds.read_bytes (some 8) none with
  | .error e => .error e
  | .ok (magic, ds) =>
    if magic ≠ arMagic then .error (.archiveError .badMagic)
    else
      match read_member st.members none ds with
      | .error e => .error e
      | .ok (indexMember, _, ds) =>
        if indexMember.name ≠ [47] then .error (.archiveError .firstMemberNotIndex)
        else
          match catalogLoop (data.length + 1) st.members [] none true ds with
          | .error e => .error e
          | .ok (members2, mnbo) =>
            match indexMember.content.read_big_endian_dword none with
            | .error e => .error e
            | .ok (symbolCount, ic) =>
              let (mos, ic2) := ic.read_sub_stream (some (4 * symbolCount)) none
              let (sns, _) := ic2.read_sub_stream none none
              match decodeLoop (mos.data.length + 1) mnbo st.symbol_member_map mos sns with
              | .error e => .error e
              | .ok smap => .ok ⟨members2, smap⟩

/-- ASCII bytes of a string literal, for building concrete archives. -/
def strBytes (s : String) : List Nat :=
  s.toList.map (fun c => c.toNat)

/-- Left-justify a byte list in a field of `n` bytes padded with spaces. -/
def padField (l : List Nat) (n : Nat) : List Nat :=
  l ++ List.replicate (n - l.length) 32

/-- A well-formed 60-byte `ar` member header: name[16], date[12] = 0,
user_id[6] and group_id[6] blank, mode[8] = 0, the given size[10], and the
terminator bytes 0x60 0x0A. -/
def arHeader (name sizeStr : String) : List Nat :=
  padField (strBytes name) 16 ++ padField (strBytes "0") 12 ++
    padField [] 6 ++ padField [] 6 ++ padField (strBytes "0") 8 ++
    padField (strBytes sizeStr) 10 ++ [96, 10]

/-- Big-endian 4-byte encoding. -/
def beDword (n : Nat) : List Nat :=
  [n / 16777216 % 256, n / 65536 % 256, n / 256 % 256, n % 256]

/-- A fully well-formed archive that the reader parses to completion: the
symbol index (1 symbol `s` at header offset 138), the second index member the
reader expects, and one regular member `a.obj` with content `AA`. -/
def goodArchive : List Nat :=
  strBytes "!<arch>\n" ++
    arHeader "/" "10" ++ (beDword 1 ++ beDword 138 ++ [115, 0]) ++
    arHeader "/" "0" ++
    arHeader "a.obj/" "2" ++ strBytes "AA"

/-- The member `a.obj` of `goodArchive` as the reader catalogs it. -/
def aObjMember : Member :=
  ⟨strBytes "a.obj", 0, [], [], 0, 2, ⟨strBytes "AA", 0⟩⟩

/-- The reader state `goodArchive` parses to. -/
def stGood : ReaderState :=
  ⟨[(strBytes "a.obj", aObjMember)], [([115], strBytes "a.obj")]⟩

/-- `goodArchive` with the index referencing offset 139 instead of the real
header offset 138. -/
def badOffsetArchive : List Nat :=
  strBytes "!<arch>\n" ++
    arHeader "/" "10" ++ (beDword 1 ++ beDword 139 ++ [115, 0]) ++
    arHeader "/" "0" ++
    arHeader "a.obj/" "2" ++ strBytes "AA"

/-- A standard-layout archive with an odd-size member: empty index (0
symbols), second index, `a.obj` of size 1 (content `A`), the newline pad byte
required by the format, then `b.obj` of size 2 (content `BB`). -/
def oddPadArchive : List Nat :=
  strBytes "!<arch>\n" ++
    arHeader "/" "4" ++ beDword 0 ++
    arHeader "/" "0" ++
    arHeader "a.obj/" "1" ++ strBytes "A" ++
    [10] ++
    arHeader "b.obj/" "2" ++ strBytes "BB"

/-- An archive whose second index member is missing: a regular member
directly follows the symbol index, the situation the reader's
"Warning: Second index appears to be missing" branch handles. -/
def missingSecondIndexArchive : List Nat :=
  strBytes "!<arch>\n" ++
    arHeader "/" "4" ++ beDword 0 ++
    arHeader "a.obj/" "0"

/-- An archive whose third member carries the long-name reference `/0` while
no `//` filename-lookup member has appeared. -/
def noLookupArchive : List Nat :=
  strBytes "!<arch>\n" ++
    arHeader "/" "4" ++ beDword 0 ++
    arHeader "/" "0" ++
    arHeader "/0" "0"

/-- The filename-lookup table content of the spec's example:
`foo.obj\0bar.obj\0`. -/
def fnTableBytes : List Nat :=
  strBytes "foo.obj" ++ [0] ++ strBytes "bar.obj" ++ [0]

/-- A recorded `//` member holding `fnTableBytes`. -/
def lookupMember : Member :=
  ⟨[47, 47], 0, [], [], 0, 16, ⟨fnTableBytes, 0⟩⟩

/-! Association-list dictionary lemmas. -/

theorem dictGet_dictSet {α β : Type} [BEq α] [LawfulBEq α]
    (d : List (α × β)) (k o : α) (v : β) :
    dictGet (dictSet d k v) o = if o == k then some v else dictGet d o := by
  induction d with
  | nil =>
    by_cases h : o = k
    · subst h; simp [dictGet, dictSet]
    · simp [dictGet, dictSet, beq_iff_eq, h, Ne.symm h]
  | cons p rest ih =>
    by_cases h1 : p.1 = k
    · subst h1
      by_cases h : o = p.1
      · subst h; simp [dictGet, dictSet]
      · simp [dictGet, dictSet, beq_iff_eq, h, Ne.symm h]
    · by_cases h2 : p.1 = o
      · subst h2
        simp [dictGet, dictSet, beq_iff_eq, h1, Ne.symm h1]
      · by_cases h3 : o = k
        · subst h3
          simp [dictGet, dictSet, beq_iff_eq, h1, h2, ih]
        · simp [dictGet, dictSet, beq_iff_eq, h1, h2, h3, ih]

theorem dictMem_dictSet_self {α β : Type} [BEq α] [LawfulBEq α]
    (d : List (α × β)) (k : α) (v : β) :
    dictMem (dictSet d k v) k = true := by
  simp [dictMem, dictGet_dictSet]

theorem dictMem_dictSet_of_mem {α β : Type} [BEq α] [LawfulBEq α]
    (d : List (α × β)) (k o : α) (v : β) (h : dictMem d o = true) :
    dictMem (dictSet d k v) o = true := by
  by_cases ho : o = k
  · subst ho; simp [dictMem, dictGet_dictSet]
  · simpa [dictMem, dictGet_dictSet, beq_iff_eq, ho] using h

theorem dictGet_dictSet_cases {α β : Type} [BEq α] [LawfulBEq α]
    {d : List (α × β)} {k o : α} {v w : β}
    (h : dictGet (dictSet d k v) o = some w) :
    (o = k ∧ w = v) ∨ dictGet d o = some w := by
  rw [dictGet_dictSet] at h
  by_cases ho : o = k
  · left
    refine ⟨ho, ?_⟩
    simpa [beq_iff_eq, ho] using h.symm
  · right
    simpa [beq_iff_eq, ho] using h

/-! Zero-byte scan lemmas for `read_cstring`. -/

theorem scanZeroAux_eq_none (l : List Nat) (i : Nat) (h : ∀ b ∈ l, b ≠ 0) :
    scanZeroAux l i = none := by
  induction l generalizing i with
  | nil => rfl
  | cons b rest ih =>
    have hb : b ≠ 0 := h b (by simp)
    simp only [scanZeroAux, hb, if_false]
    exact ih (i + 1) (fun x hx => h x (by simp [hx]))

theorem scanZeroAux_eq_some (l : List Nat) :
    ∀ i j, l[j]? = some 0 → (∀ j2, j2 < j → l[j2]? ≠ some 0) →
      scanZeroAux l i = some (i + j) := by
  induction l with
  | nil => intro i j h _; simp at h
  | cons b rest ih =>
    intro i j h hprev
    cases j with
    | zero =>
      have hb : b = 0 := by simpa using h
      simp [scanZeroAux, hb]
    | succ j =>
      have hb : b ≠ 0 := by
        have h0 := hprev 0 (Nat.succ_pos j)
        simpa using h0
      simp only [scanZeroAux, hb, if_false]
      have hr := ih (i + 1) j (by simpa using h)
        (fun j2 hj2 => by
          have := hprev (j2 + 1) (by omega)
          simpa using this)
      rw [hr]
      congr 1
      omega

/-! Claim theorems. -/

/-- C4 counterexample: `read_sub_stream` does not fail when fewer bytes
remain than requested — on a 2-byte buffer, requesting a 5-byte sub-stream
returns (its `Except`-free type already rules out an error) a view holding
only the 2 remaining bytes, silently shorter than requested. -/
theorem c4_counterexample :
    ((⟨[1, 2], 0⟩ : BufferStream).read_sub_stream (some 5) none).1.data = [1, 2] ∧
    ((⟨[1, 2], 0⟩ : BufferStream).read_sub_stream (some 5) none).1.data.length ≠ 5 := by
  constructor
  · rfl
  · decide

/-- C4 amended: `read_sub_stream length` never errors; it returns the view of
the bytes from the cursor up to `cursor + length` clamped at the end of the
buffer — exactly `length` bytes when that many remain past the cursor, and
silently fewer otherwise. -/
theorem c4_sub_stream_clamped (ds : BufferStream) (l : Nat) :
    (ds.read_sub_stream (some l) none).1.data =
        (ds.data.take (ds.cursor + l)).drop ds.cursor ∧
    (ds.read_sub_stream (some l) none).1.data.length =
        min l (ds.data.length - ds.cursor) := by
  constructor
  · rfl
  · simp only [BufferStream.read_sub_stream, BufferStream.seekOpt,
      BufferStream.newCursor, List.length_drop, List.length_take]
    omega

/-- C8 counterexample: with buffer `[0xFF, 0x00]` and the cursor at 0, a zero
byte is present, yet `read_cstring` does not return the text before it — the
byte 0xFF before the terminator is not valid UTF-8, so decoding fails. -/
theorem c8_counterexample :
    (⟨[255, 0], 0⟩ : BufferStream).read_cstring none = .error .unicodeDecodeError := rfl

/-- C8 amended: if no zero byte occurs at or after the cursor `read_cstring`
fails with an error (never returns a string), and if a first zero byte occurs
at position `e` and the bytes strictly before it decode as UTF-8, it returns
that decoded text and leaves the cursor at `e + 1`, one past the terminator. -/
theorem c8_cstring_amended (ds : BufferStream) :
    ((∀ j, ds.cursor ≤ j → ds.data[j]? ≠ some 0) →
      (ds.read_cstring none).isOk = false) ∧
    (∀ e t, ds.cursor ≤ e → ds.data[e]? = some 0 →
      (∀ j, ds.cursor ≤ j → j < e → ds.data[j]? ≠ some 0) →
      utf8Decode ((ds.data.take e).drop ds.cursor) = some t →
      ds.read_cstring none = .ok (t, ⟨ds.data, e + 1⟩)) := by
  constructor
  · intro h
    simp only [BufferStream.read_cstring, BufferStream.seekOpt]
    by_cases hmore : ds.more_to_read
    · have hz : scanZero ds.data ds.cursor = none := by
        apply scanZeroAux_eq_none
        intro b hb
        rcases List.mem_iff_getElem?.mp hb with ⟨n, hn⟩
        rw [List.getElem?_drop] at hn
        intro hb0
        exact h (ds.cursor + n) (by omega) (by rw [hn, hb0])
      simp [hmore, hz, Except.isOk, Except.toBool]
    · simp [hmore, Except.isOk, Except.toBool]
  · intro e t he h0 hprev hdec
    have hel : e < ds.data.length := by
      rcases List.getElem?_eq_some.mp h0 with ⟨hlt, _⟩
      exact hlt
    have hmore : ds.more_to_read = true := by
      simp only [BufferStream.more_to_read, decide_eq_true_eq]
      omega
    have hz : scanZero ds.data ds.cursor = some e := by
      have := scanZeroAux_eq_some (ds.data.drop ds.cursor) ds.cursor (e - ds.cursor)
        (by rw [List.getElem?_drop]; rw [Nat.add_sub_cancel' he]; exact h0)
        (fun j2 hj2 => by
          rw [List.getElem?_drop]
          exact hprev (ds.cursor + j2) (by omega) (by omega))
      rw [scanZero, this]
      congr 1
      omega
    simp only [BufferStream.read_cstring, BufferStream.seekOpt, hmore, hz, hdec]
    simp

/-- C10 counterexample: `read_ascii` with the length omitted can fail — with
buffer `[0xFF]` the remaining byte is not valid UTF-8 and the call raises a
decode error instead of returning text. -/
theorem c10_counterexample :
    (⟨[255], 0⟩ : BufferStream).read_ascii none none = .error .unicodeDecodeError := rfl

/-- C10 amended: `read_bytes` with the length omitted never fails: it returns
all bytes from the cursor to the end (the empty list when the cursor is at or
past the end) and leaves the cursor at the end of the buffer; `read_ascii`
with the length omitted performs the same read and never fails the bounds
check, but returns decoded text only when the remaining bytes are valid
UTF-8, failing with a decode error otherwise. -/
theorem c10_read_rest_amended (ds : BufferStream) :
    ds.read_bytes none none = .ok (ds.data.drop ds.cursor, ⟨ds.data, ds.data.length⟩) ∧
    (∀ t, utf8Decode (ds.data.drop ds.cursor) = some t →
      ds.read_ascii none none = .ok (t, ⟨ds.data, ds.data.length⟩)) := by
  have hb : ds.read_bytes none none =
      .ok (ds.data.drop ds.cursor, ⟨ds.data, ds.data.length⟩) := by
    simp [BufferStream.read_bytes, BufferStream.seekOpt, BufferStream.newCursor,
      List.take_length]
  refine ⟨hb, ?_⟩
  intro t hdec
  simp [BufferStream.read_ascii, hb, hdec]

/-- The 16-byte name field `/5` used to witness the long-name error path. -/
def c5WitnessField : List Nat :=
  padField (strBytes "/5") 16

set_option maxRecDepth 10000 in
/-- C5: a header name field that (after trimming trailing spaces) starts with
`/` followed by a decimal number resolves to the null-terminated string at
that offset of the recorded `//` member's content — with lookup content
`foo.obj\0bar.obj\0`, fields `/0` and `/8` resolve to `foo.obj` and
`bar.obj` — and when no filename-lookup member has been recorded, member
parsing (and hence `load`, which propagates the exception, as the concrete
`noLookupArchive` run shows) fails fatally. -/
theorem c5_longname_resolution :
    (read_member [] (some lookupMember) ⟨arHeader "/0" "0", 0⟩).map
        (fun r => r.1.name) = .ok (strBytes "foo.obj") ∧
    (read_member [] (some lookupMember) ⟨arHeader "/8" "0", 0⟩).map
        (fun r => r.1.name) = .ok (strBytes "bar.obj") ∧
    load emptyState noLookupArchive = .error (.archiveError .noFilenameLookupMember) ∧
    (∀ (members : List (List Nat × Member)) (ds ds2 : BufferStream)
        (nf rest : List Nat) (k : Nat),
      ds.read_ascii (some 16) none = .ok (nf, ds2) →
      rstripSpace nf = 47 :: rest →
      rest ≠ [] →
      rest.getLast? ≠ some 47 →
      pythonInt rest = .ok k →
      read_member members none ds = .error (.archiveError .noFilenameLookupMember)) := by
  refine ⟨rfl, rfl, rfl, ?_⟩
  intro members ds ds2 nf rest k h1 h2 h3 h4 h5
  have hne1 : ¬(47 :: rest = [47] ∨ 47 :: rest = [47, 47]) := by
    rintro (h | h)
    · exact h3 (by simpa using h)
    · have : rest = [47] := by simpa using h
      subst this
      exact h4 rfl
  have hlast : ¬((47 :: rest).getLast? = some 47) := by
    cases rest with
    | nil => exact absurd rfl h3
    | cons b l => rw [List.getLast?_cons_cons]; exact h4
  simp only [read_member, h1, h2, hne1, if_false, hlast, List.head?_cons,
    List.drop_one, List.tail_cons, h5, if_pos, if_neg, ite_false, ite_true]

set_option maxRecDepth 10000 in
/-- C7: during symbol-index decoding, a decoded header-start offset absent
from the offset table is fatal: in any state of the decode loop the next
iteration returns the `KeyError` carrying the unresolved offset (never a
silent skip), and on the concrete `badOffsetArchive` (whose index references
offset 139 while the only member header starts at 138) `load` surfaces
exactly that error to the caller. -/
theorem c7_unresolved_offset_fatal :
    (∀ (fuel : Nat) (mnbo : List (Nat × List Nat)) (smap : List (List Nat × List Nat))
        (os ns os2 ns2 : BufferStream) (o : Nat) (sym : List Nat),
      os.more_to_read = true →
      os.read_big_endian_dword none = .ok (o, os2) →
      ns.read_cstring none = .ok (sym, ns2) →
      dictGet mnbo o = none →
      decodeLoop (fuel + 1) mnbo smap os ns = .error (.keyError o)) ∧
    load emptyState badOffsetArchive = .error (.keyError 139) := by
  refine ⟨?_, rfl⟩
  intro fuel mnbo smap os ns os2 ns2 o sym hmore h1 h2 h3
  simp only [decodeLoop, hmore, if_true, h1, h2, h3, ite_true]

/-- C5 witness: the general no-lookup-member branch of
`c5_longname_resolution` applied to the concrete name field `/5`. -/
theorem c5_longname_resolution_witness :
    read_member [] none ⟨c5WitnessField, 0⟩ =
      .error (.archiveError .noFilenameLookupMember) :=
  c5_longname_resolution.2.2.2 [] ⟨c5WitnessField, 0⟩ ⟨c5WitnessField, 16⟩
    c5WitnessField [53] 5 rfl rfl (by decide) (by decide) rfl

/-- C7 witness: the general decode-step branch of
`c7_unresolved_offset_fatal` applied to a concrete one-entry offset stream
referencing the absent offset 5. -/
theorem c7_unresolved_offset_fatal_witness :
    decodeLoop 1 [] [] ⟨beDword 5, 0⟩ ⟨[115, 0], 0⟩ = .error (.keyError 5) :=
  c7_unresolved_offset_fatal.1 0 [] [] ⟨beDword 5, 0⟩ ⟨[115, 0], 0⟩
    ⟨beDword 5, 4⟩ ⟨[115, 0], 2⟩ 5 [115] rfl rfl rfl rfl

/-- Catalog-loop invariant: the `members` dictionary only grows, and every
name recorded in `member_name_by_offset` during the loop is a key of the
final `members` (`ar.py` lines 158-159 insert into both together). -/
theorem catalogLoop_members_inv :
    ∀ (fuel : Nat) (members : List (List Nat × Member)) (mnbo : List (Nat × List Nat))
      (fm : Option Member) (isFirst : Bool) (ds : BufferStream)
      (members2 : List (List Nat × Member)) (mnbo2 : List (Nat × List Nat)),
      catalogLoop fuel members mnbo fm isFirst ds = .ok (members2, mnbo2) →
      (∀ n, dictMem members n = true → dictMem members2 n = true) ∧
      (∀ o n, dictGet mnbo2 o = some n →
        dictGet mnbo o = some n ∨ dictMem members2 n = true) := by
  intro fuel
  induction fuel with
  | zero =>
    intro members mnbo fm isFirst ds members2 mnbo2 h
    simp only [catalogLoop] at h
    split at h
    · simp at h
    · injection h with h2
      injection h2 with h3 h4
      subst h3; subst h4
      exact ⟨fun n hn => hn, fun o n hg => Or.inl hg⟩
  | succ fuel ih =>
    intro members mnbo fm isFirst ds members2 mnbo2 h
    simp only [catalogLoop] at h
    split at h
    · split at h
      · simp at h
      · split at h
        · split at h
          · exact ih _ _ _ _ _ _ _ h
          · simp at h
        · split at h
          · split at h
            · exact ih _ _ _ _ _ _ _ h
            · simp at h
          · obtain ⟨mono, inv⟩ := ih _ _ _ _ _ _ _ h
            constructor
            · intro n hn
              exact mono n (dictMem_dictSet_of_mem _ _ _ _ hn)
            · intro o n hget
              rcases inv o n hget with hget2 | hmem
              · rcases dictGet_dictSet_cases hget2 with ⟨_, hn⟩ | hold
                · subst hn
                  exact Or.inr (mono _ (dictMem_dictSet_self _ _ _))
                · exact Or.inl hold
              · exact Or.inr hmem
    · injection h with h2
      injection h2 with h3 h4
      subst h3; subst h4
      exact ⟨fun n hn => hn, fun o n hg => Or.inl hg⟩

/-- Decode-loop invariant: every value of the final `symbol_member_map`
either was already a value of the incoming map or was looked up in
`member_name_by_offset`. -/
theorem decodeLoop_values_inv (P : List Nat → Prop) :
    ∀ (fuel : Nat) (mnbo : List (Nat × List Nat)) (smap : List (List Nat × List Nat))
      (os ns : BufferStream) (smap2 : List (List Nat × List Nat)),
      (∀ s mn, dictGet smap s = some mn → P mn) →
      (∀ o n, dictGet mnbo o = some n → P n) →
      decodeLoop fuel mnbo smap os ns = .ok smap2 →
      ∀ s mn, dictGet smap2 s = some mn → P mn := by
  intro fuel
  induction fuel with
  | zero =>
    intro mnbo smap os ns smap2 hs hm h
    simp only [decodeLoop] at h
    split at h
    · simp at h
    · injection h with h2
      subst h2
      exact hs
  | succ fuel ih =>
    intro mnbo smap os ns smap2 hs hm h
    simp only [decodeLoop] at h
    split at h
    · split at h
      · simp at h
      · split at h
        · simp at h
        · split at h
          · simp at h
          · next memberName hlook =>
            split at h
            · simp at h
            · refine ih _ _ _ _ _ ?_ hm h
              intro s mn hget
              rcases dictGet_dictSet_cases hget with ⟨_, hmn⟩ | hold
              · subst hmn
                exact hm _ _ hlook
              · exact hs _ _ hold
    · injection h with h2
      subst h2
      exact hs

/-- C6: after any `load` that completes without error (started from a state
whose symbol map already satisfies the invariant, as the fresh reset state
trivially does), every value of `symbol_member_map` is a key of `members`. -/
theorem c6_symbol_map_closed (st st2 : ReaderState) (data : List Nat)
    (hinv : ∀ s mn, dictGet st.symbol_member_map s = some mn →
      dictMem st.members mn = true)
    (h : load st data = .ok st2) :
    ∀ s mn, dictGet st2.symbol_member_map s = some mn →
      dictMem st2.members mn = true := by
  simp only [load] at h
  split at h
  · simp at h
  · split at h
    · simp at h
    · split at h
      · simp at h
      · split at h
        · simp at h
        · split at h
          · simp at h
          · next members2 mnbo hcat =>
            split at h
            · simp at h
            · split at h
              · simp at h
              · next smap2 hdec =>
                injection h with h2
                subst h2
                obtain ⟨mono, inv⟩ := catalogLoop_members_inv _ _ _ _ _ _ _ _ hcat
                intro s mn
                refine decodeLoop_values_inv (fun n => dictMem members2 n = true)
                  _ _ _ _ _ _ ?_ ?_ hdec s mn
                · intro s2 mn2 hget
                  exact mono mn2 (hinv s2 mn2 hget)
                · intro o n hget
                  rcases inv o n hget with hnil | hmem
                  · simp [dictGet] at hnil
                  · exact hmem

set_option maxRecDepth 10000 in
/-- C6 witness: `c6_symbol_map_closed` applied to the successful parse of the
concrete `goodArchive` from the fresh reader state: the single symbol `s`
maps to `a.obj`, which is a key of `members`. -/
theorem c6_symbol_map_closed_witness :
    load emptyState goodArchive = .ok stGood ∧
    dictGet stGood.symbol_member_map [115] = some (strBytes "a.obj") ∧
    dictMem stGood.members (strBytes "a.obj") = true :=
  ⟨rfl, rfl,
    c6_symbol_map_closed emptyState stGood goodArchive
      (fun _ _ hg => absurd hg (by simp [emptyState, dictGet]))
      rfl [115] (strBytes "a.obj") rfl⟩

/-- An archive whose first member header ends in `0x00 0x0A` instead of the
required `0x60 0x0A` terminator. -/
def badTermArchive : List Nat :=
  strBytes "!<arch>\n" ++
    ((arHeader "/" "4").dropLast.dropLast ++ [0, 10]) ++ beDword 0

/-- An archive laid out the way the reader's (misplaced) parity check expects
— the pad byte sits between the second header and its content — but with pad
byte `0` (0x30) instead of the expected newline. -/
def padCrashArchive : List Nat :=
  strBytes "!<arch>\n" ++
    arHeader "/" "5" ++ strBytes "AAAAA" ++
    arHeader "x.obj/" "0" ++ [48]

/-- An archive containing two `//` filename-lookup members. -/
def dupLookupArchive : List Nat :=
  strBytes "!<arch>\n" ++
    arHeader "/" "4" ++ beDword 0 ++
    arHeader "/" "0" ++
    arHeader "//" "0" ++
    arHeader "//" "0"

set_option maxRecDepth 10000 in
/-- C1: the pad-byte handling contradicts the claim.  On `oddPadArchive` — a
standard-layout archive where the odd-size member `a.obj` is followed by its
newline pad byte and then the member `b.obj` — `load` does not populate
`members` with `a.obj` and `b.obj`: `_read_member` checks parity only after
it has already consumed the next 60 header bytes (`ar.py` line 104), so it
reads the pad byte as the first byte of `b.obj`'s name field, misparses the
shifted header, and aborts with the `NameError` raised by the
terminator-mismatch warning (`sys` is never imported). -/
theorem c1_odd_pad_crash :
    load emptyState oddPadArchive = .error .nameError := rfl

set_option maxRecDepth 10000 in
/-- C2: none of the four anomalies is non-fatal in the code.  Each of a
header-terminator mismatch (`badTermArchive`), an odd-position pad byte that
is not a newline (`padCrashArchive`), a missing expected second index member
(`missingSecondIndexArchive`), and a duplicate `//` filename-lookup member
(`dupLookupArchive`) makes `load` abort with a `NameError`: every diagnostic
`print(..., file = sys.stderr)` in `ar.py` references `sys`, which the module
never imports. -/
theorem c2_anomalies_crash :
    load emptyState badTermArchive = .error .nameError ∧
    load emptyState padCrashArchive = .error .nameError ∧
    load emptyState missingSecondIndexArchive = .error .nameError ∧
    load emptyState dupLookupArchive = .error .nameError :=
  ⟨rfl, rfl, rfl, rfl⟩

set_option maxRecDepth 10000 in
/-- C3 counterexample: repeating `load` on one reader instance with the same
buffer does not succeed with identical maps — `load` never clears prior
state, so the second parse of `goodArchive` hits the duplicate-filename check
for `a.obj` and fails. -/
theorem c3_counterexample :
    load emptyState goodArchive = .ok stGood ∧
    load stGood goodArchive = .error (.archiveError .duplicateFilename) :=
  ⟨rfl, rfl⟩

set_option maxRecDepth 10000 in
/-- C3 amended: `load` does not clear prior state (only `reset`, called from
`__init__`, does): re-running `load` over the same buffer on the state the
first parse produced fails with a duplicate-filename error as soon as the
first regular member is reached, while loading after a `reset` is literally
loading from the fresh state and therefore reproduces the first parse's maps
exactly (the parse reads nothing but the buffer and the two dictionaries). -/
theorem c3_reload_amended :
    (∀ (st : ReaderState) (data : List Nat),
      load st.reset data = load emptyState data) ∧
    load emptyState goodArchive = .ok stGood ∧
    load stGood goodArchive = .error (.archiveError .duplicateFilename) :=
  ⟨fun _ _ => rfl, rfl, rfl⟩

/-- C3 witness: the reset-then-load branch of `c3_reload_amended` applied to
the concrete post-parse state and buffer. -/
theorem c3_reload_amended_witness :
    load stGood.reset goodArchive = load emptyState goodArchive :=
  c3_reload_amended.1 stGood goodArchive

/-- C4 witness: `c4_sub_stream_clamped` applied to a concrete stream with
enough bytes: requesting 2 bytes of the 2 remaining yields exactly 2. -/
theorem c4_sub_stream_clamped_witness :
    ((⟨[1, 2, 3], 1⟩ : BufferStream).read_sub_stream (some 2) none).1.data =
        (([1, 2, 3].take (1 + 2)).drop 1) ∧
    ((⟨[1, 2, 3], 1⟩ : BufferStream).read_sub_stream (some 2) none).1.data.length =
        min 2 ([1, 2, 3].length - 1) :=
  c4_sub_stream_clamped ⟨[1, 2, 3], 1⟩ 2

/-- C8 witness: `c8_cstring_amended` applied to concrete buffers: `[65]` has
no terminator so the read fails; `[65, 0]` yields the text `A` with the
cursor moved past the terminator. -/
theorem c8_cstring_amended_witness :
    ((⟨[65], 0⟩ : BufferStream).read_cstring none).isOk = false ∧
    (⟨[65, 0], 0⟩ : BufferStream).read_cstring none = .ok ([65], ⟨[65, 0], 2⟩) :=
  ⟨(c8_cstring_amended ⟨[65], 0⟩).1
      (by
        intro j _
        cases j with
        | zero => decide
        | succ n => simp),
    (c8_cstring_amended ⟨[65, 0], 0⟩).2 1 [65] (by decide) rfl
      (by
        intro j _ hj
        have hj0 : j = 0 := by omega
        subst hj0
        decide)
      rfl⟩

/-- C10 witness: `c10_read_rest_amended` applied to the concrete stream over
`[65]`: both reads return the full remainder and leave the cursor at the
end. -/
theorem c10_read_rest_amended_witness :
    (⟨[65], 0⟩ : BufferStream).read_bytes none none = .ok ([65], ⟨[65], 1⟩) ∧
    (⟨[65], 0⟩ : BufferStream).read_ascii none none = .ok ([65], ⟨[65], 1⟩) :=
  ⟨(c10_read_rest_amended ⟨[65], 0⟩).1, (c10_read_rest_amended ⟨[65], 0⟩).2 [65] rfl⟩

end PyCom
